import Mathlib

/-!
Verification development for the parquet viewer backend.

The definitions below are a shallow embedding of the Rust sources:
  * src/backend/src/services/parquet.rs  (cache, metadata builder, query executor)
  * src/backend/src/services/export.rs   (exporter)
  * src/backend/src/utils/mod.rs         (value codec: field_to_json, row_to_json)
  * src/src-tauri/src/lib.rs             (desktop variant of the same functions)

Machine integers are embedded as Nat/Int; where Rust wrapping matters the
wrap is written explicitly as a remainder by 2^64 or 2^32.  Fallible code
returns Option.  External library behaviour that the embedded functions call
into (chrono date-time construction and formatting, serde_json number and
string handling) is modelled definitionally next to its call sites, with
comments naming the library contract being modelled.
-/

namespace Parqsee

/-- Physical storage types of the columnar format
(parquet::basic::PhysicalType, closed enumeration). -/
inductive PhysicalType where
  | BOOLEAN
  | INT32
  | INT64
  | INT96
  | FLOAT
  | DOUBLE
  | BYTE_ARRAY
  | FIXED_LEN_BYTE_ARRAY
deriving DecidableEq, Repr

/-- The Debug rendering of a physical type, as produced by
format of the field physical type in compute_metadata. -/
def physicalTypeName : PhysicalType → String
  | .BOOLEAN => "BOOLEAN"
  | .INT32 => "INT32"
  | .INT64 => "INT64"
  | .INT96 => "INT96"
  | .FLOAT => "FLOAT"
  | .DOUBLE => "DOUBLE"
  | .BYTE_ARRAY => "BYTE_ARRAY"
  | .FIXED_LEN_BYTE_ARRAY => "FIXED_LEN_BYTE_ARRAY"

/-- Legacy converted types (parquet::basic::ConvertedType).  This legacy
enumeration is frozen by the on-disk format and is closed. -/
inductive ConvertedType where
  | NONE
  | UTF8
  | MAP
  | MAP_KEY_VALUE
  | LIST
  | ENUM
  | DECIMAL
  | DATE
  | TIME_MILLIS
  | TIME_MICROS
  | TIMESTAMP_MILLIS
  | TIMESTAMP_MICROS
  | UINT_8
  | UINT_16
  | UINT_32
  | UINT_64
  | INT_8
  | INT_16
  | INT_32
  | INT_64
  | JSON
  | BSON
  | INTERVAL
deriving DecidableEq, Repr

/-- Time units of the modern logical time and timestamp types
(parquet::format TimeUnit, a thrift union). -/
inductive TimeUnit where
  | millis
  | micros
  | nanos
deriving DecidableEq, Repr

/-- Debug rendering of a TimeUnit value.  The crate derives Debug on the
thrift union whose alternatives carry empty payload structs, so the text
includes the payload struct name. -/
def timeUnitDebug : TimeUnit → String
  | .millis => "MILLIS(MilliSeconds)"
  | .micros => "MICROS(MicroSeconds)"
  | .nanos => "NANOS(NanoSeconds)"

/-- Display rendering of a Rust bool. -/
def boolDisplay : Bool → String
  | true => "true"
  | false => "false"

/-- Modern logical type tags.  The on-disk taxonomy is open: the format
specification keeps adding tags (variant, geometry and geography are the
newest), and future revisions may add more.  The embedding therefore keeps
the tag space open with a constructor for tags beyond the ones any version
of this repository names; the two resolution functions below translate the
two match expressions of the sources arm for arm, and a tag for which a
match has no arm is mapped to none. -/
inductive LogicalTag where
  | string
  | map
  | list
  | enum
  | decimal (precision : Int) (scale : Int)
  | date
  | time (isAdjustedToUTC : Bool) (unit : TimeUnit)
  | timestamp (isAdjustedToUTC : Bool) (unit : TimeUnit)
  | integer (bitWidth : Int) (isSigned : Bool)
  | unknown
  | json
  | bson
  | uuid
  | float16
  | variant
  | geometry
  | geography
  | future (tag : String)
deriving DecidableEq, Repr

/-- The logical-type labelling match of compute_metadata in
src/backend/src/services/parquet.rs lines 175-212.  The source match names
exactly fourteen tags (String through Float16) and has no other arm: a tag
outside that list has no label, which the embedding records as none. -/
def logicalTypeLabelBackend : LogicalTag → Option String
  | .string => some "STRING"
  | .map => some "MAP"
  | .list => some "LIST"
  | .enum => some "ENUM"
  | .decimal p s => some ("DECIMAL(" ++ toString p ++ "," ++ toString s ++ ")")
  | .date => some "DATE"
  | .time u unit => some ("TIME(" ++ timeUnitDebug unit ++ ", UTC:" ++ boolDisplay u ++ ")")
  | .timestamp u unit =>
      some ("TIMESTAMP(" ++ timeUnitDebug unit ++ ", UTC:" ++ boolDisplay u ++ ")")
  | .integer w signed =>
      some ("INT" ++ toString w ++ (if signed then "" else "_UNSIGNED"))
  | .unknown => some "UNKNOWN"
  | .json => some "JSON"
  | .bson => some "BSON"
  | .uuid => some "UUID"
  | .float16 => some "FLOAT16"
  | .variant => none
  | .geometry => none
  | .geography => none
  | .future _ => none

/-- The logical-type labelling match of open_parquet_file in
src/src-tauri/src/lib.rs lines 119-146.  This desktop variant additionally
names Variant, Geometry and Geography, each with its own label; it still has
no arm for anything beyond those seventeen tags. -/
def logicalTypeLabelTauri : LogicalTag → Option String
  | .string => some "STRING"
  | .map => some "MAP"
  | .list => some "LIST"
  | .enum => some "ENUM"
  | .decimal p s => some ("DECIMAL(" ++ toString p ++ "," ++ toString s ++ ")")
  | .date => some "DATE"
  | .time u unit => some ("TIME(" ++ timeUnitDebug unit ++ ", UTC:" ++ boolDisplay u ++ ")")
  | .timestamp u unit =>
      some ("TIMESTAMP(" ++ timeUnitDebug unit ++ ", UTC:" ++ boolDisplay u ++ ")")
  | .integer w signed =>
      some ("INT" ++ toString w ++ (if signed then "" else "_UNSIGNED"))
  | .unknown => some "UNKNOWN"
  | .json => some "JSON"
  | .bson => some "BSON"
  | .uuid => some "UUID"
  | .float16 => some "FLOAT16"
  | .variant => some "VARIANT"
  | .geometry => some "GEOMETRY"
  | .geography => some "GEOGRAPHY"
  | .future _ => none

/-- The converted-type labelling match of compute_metadata
(src/backend/src/services/parquet.rs lines 215-243).  The NONE arm of the
source is the literal unreachable macro, guarded by the caller; the
embedding records it as none. -/
def convertedTypeLabel : ConvertedType → Option String
  | .UTF8 => some "STRING"
  | .MAP => some "MAP"
  | .LIST => some "LIST"
  | .ENUM => some "ENUM"
  | .DECIMAL => some "DECIMAL"
  | .DATE => some "DATE"
  | .TIME_MILLIS => some "TIME_MILLIS"
  | .TIME_MICROS => some "TIME_MICROS"
  | .TIMESTAMP_MILLIS => some "TIMESTAMP_MILLIS"
  | .TIMESTAMP_MICROS => some "TIMESTAMP_MICROS"
  | .UINT_8 => some "UINT8"
  | .UINT_16 => some "UINT16"
  | .UINT_32 => some "UINT32"
  | .UINT_64 => some "UINT64"
  | .INT_8 => some "INT8"
  | .INT_16 => some "INT16"
  | .INT_32 => some "INT32"
  | .INT_64 => some "INT64"
  | .JSON => some "JSON"
  | .BSON => some "BSON"
  | .INTERVAL => some "INTERVAL"
  | .MAP_KEY_VALUE => some "MAP_KEY_VALUE"
  | .NONE => none

/-- A schema field as compute_metadata consumes it: a name, an optional
modern logical-type tag, a legacy converted type (NONE when absent), and the
mandatory physical type. -/
structure SchemaField where
  name : String
  logical : Option LogicalTag
  converted : ConvertedType
  physical : PhysicalType
deriving DecidableEq, Repr

/-- One column descriptor (struct ColumnInfo in
src/backend/src/models/mod.rs): name, normalized column type, optional
logical-or-converted label, physical type name. -/
structure ColumnInfo where
  name : String
  column_type : String
  logical_type : Option String
  physical_type : String
deriving DecidableEq, Repr

/-- The per-field descriptor construction of compute_metadata
(src/backend/src/services/parquet.rs lines 174-255): the logical_type field
is the labelled logical tag when present, else the labelled converted type
when the converted type is not NONE, else None; column_type is that label or
the physical type name when the label is absent.  The result is none exactly
when a logical tag is present but has no arm in the backend match (in the
compiled program such a tag cannot be represented by the closed crate
enumeration at all, so no descriptor with a fallback label exists for it). -/
def computeColumnInfo (f : SchemaField) : Option ColumnInfo :=
  let physical := physicalTypeName f.physical
  let logicalLabel : Option (Option String) :=
    match f.logical with
    | some tag =>
        match logicalTypeLabelBackend tag with
        | some lbl => some (some lbl)
        | none => none
    | none =>
        if f.converted ≠ ConvertedType.NONE then
          match convertedTypeLabel f.converted with
          | some lbl => some (some lbl)
          | none => none
        else
          some none
  match logicalLabel with
  | none => none
  | some lt =>
      some { name := f.name
             column_type := lt.getD physical
             logical_type := lt
             physical_type := physical }

/-- The per-field descriptor construction of open_parquet_file
(src/src-tauri/src/lib.rs lines 119-183), identical to computeColumnInfo
except that its logical match also labels variant, geometry and geography. -/
def openParquetColumnInfo (f : SchemaField) : Option ColumnInfo :=
  let physical := physicalTypeName f.physical
  let logicalLabel : Option (Option String) :=
    match f.logical with
    | some tag =>
        match logicalTypeLabelTauri tag with
        | some lbl => some (some lbl)
        | none => none
    | none =>
        if f.converted ≠ ConvertedType.NONE then
          match convertedTypeLabel f.converted with
          | some lbl => some (some lbl)
          | none => none
        else
          some none
  match logicalLabel with
  | none => none
  | some lt =>
      some { name := f.name
             column_type := lt.getD physical
             logical_type := lt
             physical_type := physical }

/-- Whether a logical tag is among the fourteen tags the backend match
names. -/
def LogicalTag.backendRecognized : LogicalTag → Bool
  | .variant => false
  | .geometry => false
  | .geography => false
  | .future _ => false
  | _ => true

/-- Whether a logical tag is among the seventeen tags the desktop match
names. -/
def LogicalTag.tauriRecognized : LogicalTag → Bool
  | .future _ => false
  | _ => true

/-- Metadata record built per file (struct ParquetMetadata in
src/backend/src/models/mod.rs): row count, column count, ordered column
descriptors. -/
structure ParquetMetadata where
  num_rows : Int
  num_columns : Nat
  columns : List ColumnInfo
deriving DecidableEq, Repr

/-!  Value codec (src/backend/src/utils/mod.rs). -/

/-- An IEEE floating point value as the codec observes it: either finite or
one of the non-finite classes.  The numeric payload of a finite value is its
exact (dyadic) rational value; jsonText carries the shortest round-trip
decimal rendering that the serde_json serializer would print for it, kept as
data because decimal float formatting is external to this repository and no
claim below depends on it.  The widenings f32-to-f64 (the "as f64" cast) and
f16-to-f64 (to_f64) are exact and preserve the finite/non-finite class, so a
single representation serves all three widths and the casts are identities. -/
inductive FloatValue where
  | finite (val : Rat) (jsonText : String)
  | nan
  | posInf
  | negInf
deriving DecidableEq, Repr

/-- A JSON number as serde_json represents it: a 64-bit integer arm (used by
all the integer conversions and by the literal zero fallback) or a finite
double arm. -/
inductive JsonNum where
  | int (i : Int)
  | float (val : Rat) (jsonText : String)
deriving DecidableEq, Repr

/-- serde_json::Number::from_f64: some finite number, or none when the input
is NaN or infinite. -/
def serdeNumberFromF64 : FloatValue → Option JsonNum
  | .finite v t => some (JsonNum.float v t)
  | .nan => none
  | .posInf => none
  | .negInf => none

/-- serde_json::Value. -/
inductive JsonValue where
  | null
  | bool (b : Bool)
  | num (n : JsonNum)
  | str (s : String)
  | arr (items : List JsonValue)
  | obj (entries : List (String × JsonValue))

/-- Lowercase hexadecimal digit, as serde_json uses in control escapes. -/
def hexDigitLower (n : Nat) : Char :=
  "0123456789abcdef".toList.getD n '0'

/-- serde_json string escaping of a single character: quote and backslash
get a backslash escape, the five short control escapes are used where they
exist, remaining control characters become a lowercase u00xx escape, and
every other character is written as itself. -/
def escapeJsonChar (c : Char) : String :=
  if c = '"' then "\\\""
  else if c = '\\' then "\\\\"
  else if c.toNat < 32 then
    if c.toNat = 8 then "\\b"
    else if c.toNat = 9 then "\\t"
    else if c.toNat = 10 then "\\n"
    else if c.toNat = 12 then "\\f"
    else if c.toNat = 13 then "\\r"
    else
      "\\u00" ++ String.mk [hexDigitLower (c.toNat / 16), hexDigitLower (c.toNat % 16)]
  else String.singleton c

/-- serde_json escaping of a whole string (body only, without the
surrounding quotes). -/
def escapeJsonString (s : String) : String :=
  String.join (s.toList.map escapeJsonChar)

mutual

/-- The compact serialization that serde_json Display (Value::to_string)
produces.  Integer numbers print as decimal, finite doubles print their
carried shortest rendering, strings print quoted and escaped, arrays and
objects print comma separated without spaces. -/
def jsonToString : JsonValue → String
  | .null => "null"
  | .bool b => boolDisplay b
  | .num (.int i) => toString i
  | .num (.float _ t) => t
  | .str s => "\"" ++ escapeJsonString s ++ "\""
  | .arr items => "[" ++ jsonListToString items ++ "]"
  | .obj es => "\x7b" ++ jsonObjToString es ++ "\x7d"

/-- Comma separated serialization of array elements. -/
def jsonListToString : List JsonValue → String
  | [] => ""
  | [v] => jsonToString v
  | v :: w :: rest => jsonToString v ++ "," ++ jsonListToString (w :: rest)

/-- Comma separated serialization of object entries. -/
def jsonObjToString : List (String × JsonValue) → String
  | [] => ""
  | [(k, v)] => "\"" ++ escapeJsonString k ++ "\":" ++ jsonToString v
  | (k, v) :: e :: rest =>
      "\"" ++ escapeJsonString k ++ "\":" ++ jsonToString v ++ "," ++ jsonObjToString (e :: rest)

end

/-- The standard base64 alphabet. -/
def base64Char (n : Nat) : Char :=
  "ABCDEFGHIJKLMNOPQRSTUVWXYZabcdefghijklmnopqrstuvwxyz0123456789+/".toList.getD n 'A'

/-- Standard base64 with padding, as the base64 crate's STANDARD engine
encodes a byte slice. -/
def base64Encode : List Nat → String
  | [] => ""
  | [b1] =>
      let n := b1 % 256 * 65536
      String.mk [base64Char (n / 262144), base64Char (n / 4096 % 64)] ++ "=="
  | [b1, b2] =>
      let n := b1 % 256 * 65536 + b2 % 256 * 256
      String.mk [base64Char (n / 262144), base64Char (n / 4096 % 64),
        base64Char (n / 64 % 64)] ++ "="
  | b1 :: b2 :: b3 :: rest =>
      let n := b1 % 256 * 65536 + b2 % 256 * 256 + b3 % 256
      String.mk [base64Char (n / 262144), base64Char (n / 4096 % 64),
        base64Char (n / 64 % 64), base64Char (n % 64)] ++ base64Encode rest

/-- Decimal rendering of a natural number left padded with zeros to the
given width, as the chrono zero padded numeric format items print. -/
def padN (w n : Nat) : String :=
  let s := toString n
  if s.length < w then String.mk (List.replicate (w - s.length) '0') ++ s else s

/-- chrono year rendering for the %Y item: years 0 through 9999 print zero
padded to four digits without a sign; any year outside that range carries an
explicit ISO-8601 sign (chrono formats it with a plus or minus and at least
four digits after the sign), so year 10000 prints as +10000 and year -5 as
-0005. -/
def padYear (y : Int) : String :=
  if 0 ≤ y ∧ y ≤ 9999 then padN 4 y.toNat
  else if y < 0 then "-" ++ padN 4 (-y).toNat
  else "+" ++ padN 4 y.toNat

/-- Gregorian date of a day count relative to 1970-01-01 (the civil from
days algorithm); models the calendar arithmetic chrono performs when
turning an epoch based value into year, month and day. -/
def civilFromDays (z0 : Int) : Int × Nat × Nat :=
  let z := z0 + 719468
  let era : Int := z.fdiv 146097
  let doe : Nat := (z - era * 146097).toNat
  let yoe : Nat := (doe - doe / 1460 + doe / 36524 - doe / 146096) / 365
  let y : Int := (yoe : Int) + era * 400
  let doy : Nat := doe - (365 * yoe + yoe / 4 - yoe / 100)
  let mp : Nat := (5 * doy + 2) / 153
  let d : Nat := doy - (153 * mp + 2) / 5 + 1
  let m : Nat := if mp < 10 then mp + 3 else mp - 9
  (if m ≤ 2 then y + 1 else y, m, d)

/-- Day count relative to 1970-01-01 of a Gregorian date (inverse of
civilFromDays), used to state the chrono range bounds. -/
def daysFromCivil (y0 : Int) (m d : Nat) : Int :=
  let y : Int := if m ≤ 2 then y0 - 1 else y0
  let era : Int := y.fdiv 400
  let yoe : Nat := (y - era * 400).toNat
  let mp : Nat := if 2 < m then m - 3 else m + 9
  let doy : Nat := (153 * mp + 2) / 5 + d - 1
  let doe : Nat := yoe * 365 + yoe / 4 - yoe / 100 + doy
  era * 146097 + (doe : Int) - 719468

/-- Largest epoch second chrono can represent: the last second of the last
representable chrono date, year 262143, December 31. -/
def chronoMaxSecs : Int := 86400 * daysFromCivil 262143 12 31 + 86399

/-- Smallest epoch second chrono can represent: the first second of the
first representable chrono date, year -262144, January 1. -/
def chronoMinSecs : Int := 86400 * daysFromCivil (-262144) 1 1

/-- chrono DateTime::from_timestamp(secs, nsecs): succeeds exactly when the
seconds are inside the representable date range and the nanosecond field is
below two billion (values of at least one billion denote a leap second). -/
def chronoFromTimestamp (secs : Int) (nsecs : Nat) : Option (Int × Nat) :=
  if chronoMinSecs ≤ secs ∧ secs ≤ chronoMaxSecs ∧ nsecs < 2000000000 then
    some (secs, nsecs)
  else none

/-- chrono formatting of a UTC date-time built by from_timestamp with the
pattern used by the codec (%Y-%m-%d %H:%M:%S followed by a fixed width
fraction of 3 or 6 digits).  The leap second branch (nanosecond field of at
least one billion) is modelled for totality; the codec call sites below
always pass a nanosecond field below one billion. -/
def chronoFormatTimestamp (secs : Int) (nsecs : Nat) (fracDigits : Nat) : String :=
  let days := secs.fdiv 86400
  let sod : Nat := (secs - days * 86400).toNat
  let ymd := civilFromDays days
  let hh := sod / 3600
  let mi := sod % 3600 / 60
  let ss := if nsecs < 1000000000 then sod % 60 else sod % 60 + 1
  let frac := if nsecs < 1000000000 then nsecs else nsecs - 1000000000
  let fracText := if fracDigits = 3 then padN 3 (frac / 1000000) else padN 6 (frac / 1000)
  padYear ymd.1 ++ "-" ++ padN 2 ymd.2.1 ++ "-" ++ padN 2 ymd.2.2 ++ " " ++
    padN 2 hh ++ ":" ++ padN 2 mi ++ ":" ++ padN 2 ss ++ "." ++ fracText

/-- chrono NaiveDate rendering with %Y-%m-%d for the date at the given day
offset from the epoch (the codec adds a day Duration to 1970-01-01). -/
def chronoFormatDate (days : Int) : String :=
  let ymd := civilFromDays days
  padYear ymd.1 ++ "-" ++ padN 2 ymd.2.1 ++ "-" ++ padN 2 ymd.2.2

/-- chrono NaiveTime::from_hms_milli_opt: succeeds exactly when the hour,
minute and second are in range and the millisecond is below 2000 (values of
at least 1000 denote a leap second). -/
def naiveTimeFromHmsMilli (h mi s ms : Nat) : Option (Nat × Nat × Nat × Nat) :=
  if h ≤ 23 ∧ mi ≤ 59 ∧ s ≤ 59 ∧ ms ≤ 1999 then some (h, mi, s, ms) else none

/-- chrono NaiveTime::from_hms_micro_opt: like the millisecond variant with
the microsecond below 2000000. -/
def naiveTimeFromHmsMicro (h mi s us : Nat) : Option (Nat × Nat × Nat × Nat) :=
  if h ≤ 23 ∧ mi ≤ 59 ∧ s ≤ 59 ∧ us ≤ 1999999 then some (h, mi, s, us) else none

/-- chrono formatting of a NaiveTime with %H:%M:%S and a fixed width
fraction, with the leap second branch modelled as in the timestamp case. -/
def chronoFormatTime (h mi s : Nat) (frac fracUnit : Nat) (fracDigits : Nat) : String :=
  let leap := frac ≥ fracUnit
  let ss := if leap then s + 1 else s
  let fr := if leap then frac - fracUnit else frac
  padN 2 h ++ ":" ++ padN 2 mi ++ ":" ++ padN 2 ss ++ "." ++ padN fracDigits fr

/-- The wrap of the Rust "as u32" cast applied to a 64-bit signed
intermediate: the value modulo 2^32, as a natural number. -/
def asU32 (v : Int) : Nat :=
  (v % 4294967296).toNat

/-- A decoded columnar value (parquet::record::Field).  Integer payloads are
embedded as Int or Nat; the decoder guarantees them inside their declared
widths and no conversion below can overflow on them.  The decimal payload
carries the Debug rendering the codec prints for it, since that rendering is
produced by a derive in the external crate and no claim depends on its
shape. -/
inductive Field where
  | bool (b : Bool)
  | byte (v : Int)
  | short (v : Int)
  | int (v : Int)
  | long (v : Int)
  | ubyte (v : Nat)
  | ushort (v : Nat)
  | uint (v : Nat)
  | ulong (v : Nat)
  | float (v : FloatValue)
  | double (v : FloatValue)
  | decimal (debugText : String)
  | str (s : String)
  | bytes (data : List Nat)
  | date (days : Int)
  | timestampMillis (v : Int)
  | timestampMicros (v : Int)
  | timeMillis (v : Int)
  | timeMicros (v : Int)
  | float16 (v : FloatValue)
  | group (fields : List (String × Field))
  | listInternal (elements : List Field)
  | mapInternal (entries : List (Field × Field))
  | null

/-- serde_json::Map::insert: when the key is present its value is replaced
in place, otherwise the binding is appended.  (With the map backed by a
b-tree the iteration order would be sorted instead; every statement below is
made through key lookup and does not depend on entry order.) -/
def jsonObjInsert (entries : List (String × JsonValue)) (k : String) (v : JsonValue) :
    List (String × JsonValue) :=
  if entries.any (fun p => p.1 = k) then
    entries.map (fun p => if p.1 = k then (k, v) else p)
  else entries ++ [(k, v)]

mutual

/-- field_to_json of src/backend/src/utils/mod.rs lines 17-109, one source
match arm per constructor.  The timestamp arms embed the two Rust truncating
operations v / k and v % k as Int.tdiv and Int.tmod and the "as u32" cast as
asU32; the chrono calls are the models above. -/
def field_to_json : Field → JsonValue
  | .bool b => JsonValue.bool b
  | .byte v => JsonValue.num (JsonNum.int v)
  | .short v => JsonValue.num (JsonNum.int v)
  | .int v => JsonValue.num (JsonNum.int v)
  | .long v => JsonValue.num (JsonNum.int v)
  | .ubyte v => JsonValue.num (JsonNum.int v)
  | .ushort v => JsonValue.num (JsonNum.int v)
  | .uint v => JsonValue.num (JsonNum.int v)
  | .ulong v => JsonValue.num (JsonNum.int v)
  | .float v => JsonValue.num ((serdeNumberFromF64 v).getD (JsonNum.int 0))
  | .double v => JsonValue.num ((serdeNumberFromF64 v).getD (JsonNum.int 0))
  | .decimal t => JsonValue.str t
  | .str s => JsonValue.str s
  | .bytes d => JsonValue.str (base64Encode d)
  | .date v => JsonValue.str (chronoFormatDate v)
  | .timestampMillis v =>
      let seconds := Int.tdiv v 1000
      let nanos := asU32 (Int.tmod v 1000 * 1000000)
      match chronoFromTimestamp seconds nanos with
      | some _ => JsonValue.str (chronoFormatTimestamp seconds nanos 3)
      | none => JsonValue.num (JsonNum.int v)
  | .timestampMicros v =>
      let seconds := Int.tdiv v 1000000
      let nanos := asU32 (Int.tmod v 1000000 * 1000)
      match chronoFromTimestamp seconds nanos with
      | some _ => JsonValue.str (chronoFormatTimestamp seconds nanos 6)
      | none => JsonValue.num (JsonNum.int v)
  | .timeMillis v =>
      let hours := asU32 (Int.tdiv v 3600000)
      let minutes := asU32 (Int.tdiv (Int.tmod v 3600000) 60000)
      let seconds := asU32 (Int.tdiv (Int.tmod v 60000) 1000)
      let millis := asU32 (Int.tmod v 1000)
      match naiveTimeFromHmsMilli hours minutes seconds millis with
      | some _ => JsonValue.str (chronoFormatTime hours minutes seconds millis 1000 3)
      | none => JsonValue.num (JsonNum.int v)
  | .timeMicros v =>
      let hours := asU32 (Int.tdiv v 3600000000)
      let minutes := asU32 (Int.tdiv (Int.tmod v 3600000000) 60000000)
      let seconds := asU32 (Int.tdiv (Int.tmod v 60000000) 1000000)
      let micros := asU32 (Int.tmod v 1000000)
      match naiveTimeFromHmsMicro hours minutes seconds micros with
      | some _ => JsonValue.str (chronoFormatTime hours minutes seconds micros 1000000 6)
      | none => JsonValue.num (JsonNum.int v)
  | .float16 v => JsonValue.num ((serdeNumberFromF64 v).getD (JsonNum.int 0))
  | .group fs => JsonValue.obj (rowEntriesToObj [] fs)
  | .listInternal l => JsonValue.arr (fieldListToJson l)
  | .mapInternal es => JsonValue.obj (mapEntriesToObj [] es)
  | .null => JsonValue.null

/-- The column loop of row_to_json (src/backend/src/utils/mod.rs lines
6-15): convert each column value and insert it into a serde map under the
column name. -/
def rowEntriesToObj (acc : List (String × JsonValue)) :
    List (String × Field) → List (String × JsonValue)
  | [] => acc
  | (n, f) :: rest => rowEntriesToObj (jsonObjInsert acc n (field_to_json f)) rest

/-- Elementwise conversion of a list value. -/
def fieldListToJson : List Field → List JsonValue
  | [] => []
  | f :: rest => field_to_json f :: fieldListToJson rest

/-- The entry loop of the map arm (src/backend/src/utils/mod.rs lines
100-106): each key is converted and then stringified with the serde Display
serialization, each value is converted, and the pair is inserted into a
serde map. -/
def mapEntriesToObj (acc : List (String × JsonValue)) :
    List (Field × Field) → List (String × JsonValue)
  | [] => acc
  | (k, v) :: rest =>
      mapEntriesToObj
        (jsonObjInsert acc (jsonToString (field_to_json k)) (field_to_json v)) rest

end

/-- row_to_json of src/backend/src/utils/mod.rs lines 6-15. -/
def row_to_json (row : List (String × Field)) : JsonValue :=
  JsonValue.obj (rowEntriesToObj [] row)

/-- Lookup of a key in a converted JSON object; none on non-objects. -/
def objLookup (v : JsonValue) (k : String) : Option JsonValue :=
  match v with
  | .obj es => es.lookup k
  | _ => none

/-!  Cache manager (src/backend/src/services/parquet.rs lines 11-85). -/

/-- Hash map insert for an association list: the new binding shadows and
replaces any previous binding of the key. -/
def insertAssoc {α : Type} (l : List (String × α)) (k : String) (v : α) :
    List (String × α) :=
  (k, v) :: l.filter (fun p => p.1 ≠ k)

/-- The file system and the expensive constructors, as the cache manager
sees them: registering a parquet file for querying yields a session handle
or fails, and compute_metadata reads the footer and yields metadata or
fails.  Both are functions of the path because the underlying file is
immutable for the lifetime of the process. -/
structure FileSys where
  openSession : String → Option String
  readMeta : String → Option ParquetMetadata

/-- The two maps of struct ParquetCache: sessions and metadata, keyed by
file path and populated independently of one another. -/
structure CacheState where
  sessions : List (String × String)
  metadata : List (String × ParquetMetadata)
deriving DecidableEq, Repr

/-- The cache of a freshly started process. -/
def emptyCache : CacheState :=
  { sessions := [], metadata := [] }

/-- get_or_create_session (lines 26-52): return the cached handle if
present; otherwise build a new session, and only on success insert it and
return it.  A failed registration returns the error without touching the
map. -/
def get_or_create_session (fs : FileSys) (st : CacheState) (path : String) :
    Option String × CacheState :=
  match st.sessions.lookup path with
  | some ctx => (some ctx, st)
  | none =>
      match fs.openSession path with
      | none => (none, st)
      | some ctx => (some ctx, { st with sessions := insertAssoc st.sessions path ctx })

/-- get_or_create_metadata (lines 55-74): same shape over the metadata map,
delegating to compute_metadata.  The third component counts how many times
the file was read (compute_metadata opens and parses the file exactly
once per invocation of the miss path). -/
def get_or_create_metadata (fs : FileSys) (st : CacheState) (path : String) :
    Option ParquetMetadata × CacheState × Nat :=
  match st.metadata.lookup path with
  | some m => (some m, st, 0)
  | none =>
      match fs.readMeta path with
      | none => (none, st, 1)
      | some m => (some m, { st with metadata := insertAssoc st.metadata path m }, 1)

/-- evict (lines 77-84): remove the session and the metadata entries of the
path, each a no-op when absent. -/
def evict (st : CacheState) (path : String) : CacheState :=
  { sessions := st.sessions.filter (fun p => p.1 ≠ path)
    metadata := st.metadata.filter (fun p => p.1 ≠ path) }

/-- One client-visible cache operation. -/
inductive CacheOp where
  | getSession (path : String)
  | getMeta (path : String)
  | evictPath (path : String)

/-- The state reached after one cache operation. -/
def cacheStep (fs : FileSys) (st : CacheState) : CacheOp → CacheState
  | .getSession p => (get_or_create_session fs st p).2
  | .getMeta p => (get_or_create_metadata fs st p).2.1
  | .evictPath p => evict st p

/-- The state reached after a sequence of cache operations. -/
def cacheRun (fs : FileSys) : CacheState → List CacheOp → CacheState
  | st, [] => st
  | st, op :: rest => cacheRun fs (cacheStep fs st op) rest

/-!  Exporter (src/backend/src/services/export.rs). -/

/-- Rust usize subtraction a - b embedded with the wrap written out: the
source computes total_rows - offset unchecked, which in the release profile
wraps modulo 2^64.  Meaningful only for a and b below 2^64. -/
def usizeWrapSub (a b : Nat) : Nat :=
  (a + 18446744073709551616 - b) % 18446744073709551616

/-- Rust str::to_lowercase, modelled as per character lowercasing; Unicode
lowercasing agrees with it on every input whose lowercase form could be one
of the two recognized ascii format names. -/
def rustToLowercase (s : String) : String :=
  String.mk (s.data.map Char.toLower)

/-- The two supported export formats. -/
inductive ExportFormat where
  | csv
  | json
deriving DecidableEq, Repr

/-- The format dispatch of export_data (src/backend/src/services/export.rs
lines 57-62): match on the lowercased format string, with every other value
rejected. -/
def exportFormatDispatch (format : String) : Option ExportFormat :=
  if rustToLowercase format = "csv" then some ExportFormat.csv
  else if rustToLowercase format = "json" then some ExportFormat.json
  else none

/-- What an export run leaves behind: the returned confirmation or error
text, and whether the output path was created (File::create happens only
inside export_to_csv and export_to_json, lines 72 and 106, after the format
dispatch has succeeded). -/
structure ExportOutcome where
  result : Except String String
  outputCreated : Bool
deriving Repr

/-- export_data (src/backend/src/services/export.rs lines 9-69) over an
already decoded source file: totalRows is the footer row count, rows the
decoded row stream in file order.  The offset skip loop and the bounded
collect loop both stop early at end of stream, embedded as drop and take;
the limit default total_rows - offset is the unchecked usize subtraction
embedded as usizeWrapSub.  On an unsupported format the function returns the
error before either writer runs, so no output file is created or
truncated. -/
def export_data (totalRows : Nat) (columns : List String)
    (rows : List (List (String × Field))) (export_path : String) (format : String)
    (offset : Option Nat) (limit : Option Nat) : ExportOutcome :=
  let _ := columns
  let off := offset.getD 0
  let afterSkip := rows.drop off
  let lim := limit.getD (usizeWrapSub totalRows off)
  let rowsToExport := min lim (usizeWrapSub totalRows off)
  let rowsData := afterSkip.take rowsToExport
  match exportFormatDispatch format with
  | some _ =>
      { result := Except.ok ("Successfully exported " ++ toString rowsData.length
          ++ " rows to " ++ export_path)
        outputCreated := true }
  | none =>
      { result := Except.error ("Unsupported export format: " ++ format)
        outputCreated := false }

/-- The window the specification prescribes: the size of
[offset, offset+limit) ∩ [0, totalRows), with the limit defaulting to
totalRows - offset.  Stated with truncating Nat subtraction, which realizes
the clamping at zero. -/
def clampedWindowSize (totalRows offsetV : Nat) (limit : Option Nat) : Nat :=
  min (offsetV + limit.getD (totalRows - offsetV)) totalRows - offsetV

/-- The rendering the specification prescribes for a timestamp in
milliseconds: decompose t into days since the epoch and milliseconds of day
by floor division (UTC has no offsets or leap adjustments here), and render
the civil date with the time of day and three fractional digits. -/
def specTimestampMillisText (t : Int) : String :=
  let days := t.fdiv 86400000
  let msOfDay : Nat := (t - days * 86400000).toNat
  let ymd := civilFromDays days
  padYear ymd.1 ++ "-" ++ padN 2 ymd.2.1 ++ "-" ++ padN 2 ymd.2.2 ++ " " ++
    padN 2 (msOfDay / 3600000) ++ ":" ++ padN 2 (msOfDay / 60000 % 60) ++ ":" ++
    padN 2 (msOfDay / 1000 % 60) ++ "." ++ padN 3 (msOfDay % 1000)

/-- The analogous prescribed rendering for a timestamp in microseconds,
with six fractional digits. -/
def specTimestampMicrosText (t : Int) : String :=
  let days := t.fdiv 86400000000
  let usOfDay : Nat := (t - days * 86400000000).toNat
  let ymd := civilFromDays days
  padYear ymd.1 ++ "-" ++ padN 2 ymd.2.1 ++ "-" ++ padN 2 ymd.2.2 ++ " " ++
    padN 2 (usOfDay / 3600000000) ++ ":" ++ padN 2 (usOfDay / 60000000 % 60) ++ ":" ++
    padN 2 (usOfDay / 1000000 % 60) ++ "." ++ padN 6 (usOfDay % 1000000)

/-- A millisecond instant is inside the chrono representable range exactly
when its second component is; spelled directly on the millisecond count. -/
def millisRepresentable (t : Int) : Prop :=
  chronoMinSecs * 1000 ≤ t ∧ t ≤ chronoMaxSecs * 1000 + 999

/-!  Theorems. -/

/-- C2: for every schema field whose descriptor is built, the descriptor's
column_type equals the logical-type label when a logical tag is present (and
labelled), else the converted-type label when the converted type is not
NONE, else the physical type name; logical_type is that same label, and is
absent exactly when neither tag resolves. -/
theorem computeColumnInfo_normalizedType (f : SchemaField) (ci : ColumnInfo)
    (h : computeColumnInfo f = some ci) :
    (∀ tag lbl, f.logical = some tag → logicalTypeLabelBackend tag = some lbl →
        ci.column_type = lbl ∧ ci.logical_type = some lbl)
    ∧ (f.logical = none → f.converted ≠ ConvertedType.NONE →
        ∃ lbl, convertedTypeLabel f.converted = some lbl ∧
          ci.column_type = lbl ∧ ci.logical_type = some lbl)
    ∧ (f.logical = none → f.converted = ConvertedType.NONE →
        ci.column_type = physicalTypeName f.physical ∧ ci.logical_type = none)
    ∧ (ci.logical_type = none ↔ f.logical = none ∧ f.converted = ConvertedType.NONE) := by
  unfold computeColumnInfo at h
  cases hf : f.logical with
  | some tag =>
      rw [hf] at h
      cases hl : logicalTypeLabelBackend tag with
      | none =>
          simp only [hl] at h
          exact Option.noConfusion h
      | some lbl =>
          simp only [hl, Option.some.injEq] at h
          subst h
          refine ⟨?_, ?_, ?_, ?_⟩
          · intro tag2 lbl2 htag hlbl
            injection htag with he
            subst he
            rw [hl] at hlbl
            injection hlbl with he2
            subst he2
            exact ⟨rfl, rfl⟩
          · intro hno
            exact Option.noConfusion hno
          · intro hno
            exact Option.noConfusion hno
          · constructor
            · intro hlt
              exact Option.noConfusion hlt
            · rintro ⟨hno, -⟩
              exact Option.noConfusion hno
  | none =>
      rw [hf] at h
      by_cases hc : f.converted = ConvertedType.NONE
      · simp only [hc, ne_eq, not_true_eq_false, if_false, Option.some.injEq] at h
        subst h
        refine ⟨?_, ?_, ?_, ?_⟩
        · intro tag2 lbl2 htag
          exact Option.noConfusion htag
        · intro _ hne
          exact absurd hc hne
        · intro _ _
          exact ⟨rfl, rfl⟩
        · simp [hc]
      · cases hcl : convertedTypeLabel f.converted with
        | none =>
            exfalso
            cases hx : f.converted <;> rw [hx] at hcl hc <;> simp_all [convertedTypeLabel]
        | some lbl =>
            rw [if_pos hc] at h
            simp only [hcl, Option.some.injEq] at h
            subst h
            refine ⟨?_, ?_, ?_, ?_⟩
            · intro tag2 lbl2 htag
              exact Option.noConfusion htag
            · intro _ _
              refine ⟨lbl, rfl, ?_, ?_⟩
              · rfl
              · rfl
            · intro _ hcn
              exact absurd hcn hc
            · constructor
              · intro hlt
                exact Option.noConfusion hlt
              · rintro ⟨-, hcn⟩
                exact absurd hcn hc

/-- Witness for C2 at a concrete string typed field. -/
theorem computeColumnInfo_normalizedType_witness :
    ColumnInfo.column_type ⟨"c", "STRING", some "STRING", "BYTE_ARRAY"⟩ = "STRING"
    ∧ ColumnInfo.logical_type ⟨"c", "STRING", some "STRING", "BYTE_ARRAY"⟩ = some "STRING" :=
  (computeColumnInfo_normalizedType
      ⟨"c", some LogicalTag.string, ConvertedType.NONE, PhysicalType.BYTE_ARRAY⟩
      ⟨"c", "STRING", some "STRING", "BYTE_ARRAY"⟩ rfl).1
    LogicalTag.string "STRING" rfl rfl

/-- C3 counterexample: the type-tag enumerations are not open.  The backend
resolution has no arm for the variant tag and produces no descriptor at all
for a field carrying it, and even the desktop resolution (which names
variant, geometry and geography) produces no labelled fallback for a tag
beyond its list. -/
theorem typeTagResolution_closed_counterexample :
    computeColumnInfo
        ⟨"c", some LogicalTag.variant, ConvertedType.NONE, PhysicalType.BYTE_ARRAY⟩ = none
    ∧ openParquetColumnInfo
        ⟨"c", some (LogicalTag.future "FUTURE_TAG"), ConvertedType.NONE,
          PhysicalType.BYTE_ARRAY⟩ = none
    ∧ logicalTypeLabelBackend LogicalTag.variant = none
    ∧ logicalTypeLabelTauri (LogicalTag.future "FUTURE_TAG") = none :=
  ⟨rfl, rfl, rfl, rfl⟩

/-- C3 amended: the enumerations are closed.  The backend labels exactly the
fourteen tags of its match and the desktop variant exactly its seventeen;
variant, geometry and geography have their own labels only in the desktop
match; neither match has a fallback arm, so a tag outside its list yields no
label. -/
theorem logicalTypeLabel_closed_enumeration :
    (∀ t : LogicalTag, (logicalTypeLabelBackend t).isSome = LogicalTag.backendRecognized t)
    ∧ (∀ t : LogicalTag, (logicalTypeLabelTauri t).isSome = LogicalTag.tauriRecognized t)
    ∧ logicalTypeLabelTauri LogicalTag.variant = some "VARIANT"
    ∧ logicalTypeLabelTauri LogicalTag.geometry = some "GEOMETRY"
    ∧ logicalTypeLabelTauri LogicalTag.geography = some "GEOGRAPHY" := by
  refine ⟨?_, ?_, rfl, rfl, rfl⟩ <;> intro t <;> cases t <;> rfl

/-- C8: a non-finite float32, float64 or float16 value converts to the JSON
number 0 (the from_f64 failure arm replaced by the integer zero), never to
an error. -/
theorem fieldToJson_nonfinite_zero (v : FloatValue)
    (h : v = FloatValue.nan ∨ v = FloatValue.posInf ∨ v = FloatValue.negInf) :
    field_to_json (Field.float v) = JsonValue.num (JsonNum.int 0)
    ∧ field_to_json (Field.double v) = JsonValue.num (JsonNum.int 0)
    ∧ field_to_json (Field.float16 v) = JsonValue.num (JsonNum.int 0) := by
  rcases h with rfl | rfl | rfl <;> exact ⟨rfl, rfl, rfl⟩

/-- Witness for C8 at NaN. -/
theorem fieldToJson_nonfinite_zero_witness :
    (FloatValue.nan = FloatValue.nan ∨ FloatValue.nan = FloatValue.posInf
      ∨ FloatValue.nan = FloatValue.negInf)
    ∧ field_to_json (Field.double FloatValue.nan) = JsonValue.num (JsonNum.int 0) :=
  ⟨Or.inl rfl, (fieldToJson_nonfinite_zero FloatValue.nan (Or.inl rfl)).2.1⟩

/-- A key filtered out of an association list is no longer found. -/
lemma lookup_filter_ne {α : Type} (l : List (String × α)) (p : String) :
    (l.filter (fun q => q.1 ≠ p)).lookup p = none := by
  rw [List.lookup_eq_none_iff]
  intro q hq
  have h2 := (List.mem_filter.mp hq).2
  simp at h2 ⊢
  exact fun h => h2 h.symm

/-- An inserted binding is found under its key. -/
lemma lookup_insertAssoc {α : Type} (l : List (String × α)) (k : String) (v : α) :
    (insertAssoc l k v).lookup k = some v := by
  simp [insertAssoc, List.lookup]

/-- C9: a second getOrCreateMetadata on the same path returns the identical
metadata value and performs zero file reads: it is answered from the
cache. -/
theorem get_or_create_metadata_idempotent :
    ∀ (fs : FileSys) (st : CacheState) (p : String) (m : ParquetMetadata)
      (st1 : CacheState) (c1 : Nat),
      get_or_create_metadata fs st p = (some m, st1, c1) →
      get_or_create_metadata fs st1 p = (some m, st1, 0) := by
  intro fs st p m st1 c1 h
  unfold get_or_create_metadata at h ⊢
  cases hl : st.metadata.lookup p with
  | some m0 =>
      rw [hl] at h
      simp only [Prod.mk.injEq, Option.some.injEq] at h
      obtain ⟨rfl, rfl, -⟩ := h
      rw [hl]
  | none =>
      rw [hl] at h
      cases hr : fs.readMeta p with
      | none =>
          rw [hr] at h
          simp at h
      | some m0 =>
          rw [hr] at h
          simp only [Prod.mk.injEq, Option.some.injEq] at h
          obtain ⟨rfl, rfl, -⟩ := h
          simp only [lookup_insertAssoc]

/-- Witness for C9: a cold call on path a followed by the guaranteed cached
second call. -/
theorem get_or_create_metadata_idempotent_witness :
    get_or_create_metadata ⟨fun _ => none, fun _ => some ⟨3, 0, []⟩⟩
        ⟨[], [("a", ⟨3, 0, []⟩)]⟩ "a"
      = (some ⟨3, 0, []⟩, ⟨[], [("a", ⟨3, 0, []⟩)]⟩, 0) :=
  get_or_create_metadata_idempotent ⟨fun _ => none, fun _ => some ⟨3, 0, []⟩⟩
    emptyCache "a" ⟨3, 0, []⟩ ⟨[], [("a", ⟨3, 0, []⟩)]⟩ 1 rfl

/-- C5 counterexample: the pair-or-none invariant does not hold.  The
session and metadata caches are two independent maps; one successful
getOrCreateMetadata call reaches a state where the path has a metadata entry
and no session entry. -/
theorem cache_pair_counterexample :
    ((cacheRun ⟨fun p => some p, fun _ => some ⟨0, 0, []⟩⟩ emptyCache
        [CacheOp.getMeta "a"]).metadata.lookup "a").isSome = true
    ∧ (cacheRun ⟨fun p => some p, fun _ => some ⟨0, 0, []⟩⟩ emptyCache
        [CacheOp.getMeta "a"]).sessions.lookup "a" = none := by
  constructor
  · rfl
  · rfl

/-- C5 amended: each cache populates atomically on its own — a failed
populate of either map leaves the whole cache state unchanged, and eviction
removes the session and metadata entries of the path together — but the two
maps fill independently, so a path may hold one of the two entries without
the other. -/
theorem cache_populate_atomicity :
    (∀ (fs : FileSys) (st : CacheState) (p : String),
      fs.readMeta p = none → (get_or_create_metadata fs st p).2.1 = st)
    ∧ (∀ (fs : FileSys) (st : CacheState) (p : String),
      fs.openSession p = none → (get_or_create_session fs st p).2 = st)
    ∧ (∀ (st : CacheState) (p : String),
      (evict st p).sessions.lookup p = none ∧ (evict st p).metadata.lookup p = none) := by
  refine ⟨?_, ?_, ?_⟩
  · intro fs st p h
    unfold get_or_create_metadata
    cases hl : st.metadata.lookup p with
    | some m0 => rfl
    | none => rw [h]
  · intro fs st p h
    unfold get_or_create_session
    cases hl : st.sessions.lookup p with
    | some s0 => rfl
    | none => rw [h]
  · intro st p
    exact ⟨lookup_filter_ne st.sessions p, lookup_filter_ne st.metadata p⟩

/-- Witness for the amended C5 at a failing file system and the empty
cache. -/
theorem cache_populate_atomicity_witness :
    (get_or_create_metadata ⟨fun _ => none, fun _ => none⟩ emptyCache "a").2.1 = emptyCache
    ∧ (evict emptyCache "a").sessions.lookup "a" = none :=
  ⟨cache_populate_atomicity.1 ⟨fun _ => none, fun _ => none⟩ emptyCache "a" rfl,
    (cache_populate_atomicity.2.2 emptyCache "a").1⟩

/-- C6: an export format whose lowercase form is neither csv nor json fails
with the unsupported-format error and the output path is not created; csv
and json are recognized case-insensitively (through the lowercased
dispatch), and then the output is created. -/
theorem export_data_unsupported_format :
    ∀ (totalRows : Nat) (columns : List String) (rows : List (List (String × Field)))
      (epath fmt : String) (offset limit : Option Nat),
      (rustToLowercase fmt ≠ "csv" → rustToLowercase fmt ≠ "json" →
        export_data totalRows columns rows epath fmt offset limit =
          ⟨Except.error ("Unsupported export format: " ++ fmt), false⟩)
      ∧ ((rustToLowercase fmt = "csv" ∨ rustToLowercase fmt = "json") →
        (export_data totalRows columns rows epath fmt offset limit).outputCreated = true) := by
  intro totalRows columns rows epath fmt offset limit
  constructor
  · intro h1 h2
    have hd : exportFormatDispatch fmt = none := by
      simp [exportFormatDispatch, h1, h2]
    simp [export_data, hd]
  · intro h
    have hd : (exportFormatDispatch fmt).isSome = true := by
      rcases h with h | h <;> rw [exportFormatDispatch, h] <;> simp
    obtain ⟨f, hf⟩ := Option.isSome_iff_exists.mp hd
    simp [export_data, hf]

/-- Witness for C6 at the format xml (rejected, nothing written) and at the
uppercase format CSV (accepted case-insensitively). -/
theorem export_data_unsupported_format_witness :
    rustToLowercase "xml" ≠ "csv"
    ∧ rustToLowercase "xml" ≠ "json"
    ∧ export_data 0 [] [] "out" "xml" none none =
        ⟨Except.error "Unsupported export format: xml", false⟩
    ∧ (export_data 0 [] [] "out" "CSV" none none).outputCreated = true :=
  ⟨by decide, by decide,
    (export_data_unsupported_format 0 [] [] "out" "xml" none none).1
      (by decide) (by decide),
    (export_data_unsupported_format 0 [] [] "out" "CSV" none none).2 (Or.inl rfl)⟩

/-- The number of rows the export loop materializes equals the clamped
window size of the specification: drop and take against the real stream
length intersect the requested window with the file. -/
lemma export_window_len {α : Type} (t o : Nat) (rows : List α) (limit : Option Nat)
    (hlen : rows.length = t) (ht : t < 18446744073709551616)
    (ho : o < 18446744073709551616)
    (hlim : ∀ l, limit = some l → l < 18446744073709551616) :
    ((rows.drop o).take (min (limit.getD (usizeWrapSub t o)) (usizeWrapSub t o))).length
      = clampedWindowSize t o limit := by
  cases limit with
  | none =>
      simp [List.length_take, List.length_drop, hlen, clampedWindowSize, usizeWrapSub]
      omega
  | some l =>
      have hl := hlim l rfl
      simp [List.length_take, List.length_drop, hlen, clampedWindowSize, usizeWrapSub]
      omega

/-- C4: for every source file and every offset and optional limit below the
usize bound — offsets beyond the row count included — exportData completes,
exports exactly the rows of the clamped window
[offset, offset+limit) ∩ [0, totalRows), and its confirmation string
reports that clamped (possibly smaller) count. -/
theorem export_data_clamped_window :
    ∀ (totalRows : Nat) (columns : List String) (rows : List (List (String × Field)))
      (epath fmt : String) (offset limit : Option Nat),
      rows.length = totalRows →
      totalRows < 18446744073709551616 →
      offset.getD 0 < 18446744073709551616 →
      (∀ l, limit = some l → l < 18446744073709551616) →
      (exportFormatDispatch fmt).isSome = true →
      export_data totalRows columns rows epath fmt offset limit =
        ⟨Except.ok ("Successfully exported "
            ++ toString (clampedWindowSize totalRows (offset.getD 0) limit)
            ++ " rows to " ++ epath), true⟩ := by
  intro totalRows columns rows epath fmt offset limit hlen ht ho hlim hd
  obtain ⟨f, hf⟩ := Option.isSome_iff_exists.mp hd
  have hwin := export_window_len totalRows (offset.getD 0) rows limit hlen ht ho hlim
  simp only [export_data, hf]
  rw [hwin]

/-- Witness for C4 with an offset beyond the end of a two row file: zero
rows exported, no panic. -/
theorem export_data_clamped_window_witness :
    export_data 2 [] [[], []] "out" "json" (some 5) none =
      ⟨Except.ok "Successfully exported 0 rows to out", true⟩ :=
  export_data_clamped_window 2 [] [[], []] "out" "json" (some 5) none rfl
    (by decide) (by decide) (fun l hl => nomatch hl) (by decide)

/-- A serde map insert makes its key found afterwards. -/
lemma jsonObjInsert_lookup_isSome_self (es : List (String × JsonValue)) (k : String)
    (v : JsonValue) : ((jsonObjInsert es k v).lookup k).isSome = true := by
  unfold jsonObjInsert
  by_cases h : es.any (fun p => p.1 = k)
  · rw [if_pos h, List.lookup_isSome_iff]
    obtain ⟨q, hq, hqk⟩ := List.any_eq_true.mp h
    refine ⟨(k, v), List.mem_map.mpr ⟨q, hq, ?_⟩, by simp⟩
    simp [of_decide_eq_true hqk]
  · rw [if_neg h, List.lookup_isSome_iff]
    exact ⟨(k, v), List.mem_append_right _ (List.mem_singleton.mpr rfl), by simp⟩

/-- A serde map insert keeps every key that was already found. -/
lemma jsonObjInsert_lookup_isSome_mono (es : List (String × JsonValue)) (k j : String)
    (v : JsonValue) (h : (es.lookup j).isSome = true) :
    ((jsonObjInsert es k v).lookup j).isSome = true := by
  rw [List.lookup_isSome_iff] at h
  obtain ⟨q, hq, hjq⟩ := h
  unfold jsonObjInsert
  by_cases hany : es.any (fun p => p.1 = k)
  · rw [if_pos hany, List.lookup_isSome_iff]
    by_cases hqk : q.1 = k
    · refine ⟨(k, v), List.mem_map.mpr ⟨q, hq, by simp [hqk]⟩, ?_⟩
      simp at hjq ⊢
      exact hjq.trans hqk
    · exact ⟨q, List.mem_map.mpr ⟨q, hq, by simp [hqk]⟩, hjq⟩
  · rw [if_neg hany, List.lookup_isSome_iff]
    exact ⟨q, List.mem_append_left _ hq, hjq⟩

/-- The map-entry fold keeps every key already present in the
accumulator. -/
lemma mapEntriesToObj_lookup_mono (es : List (Field × Field))
    (acc : List (String × JsonValue)) (j : String)
    (h : (acc.lookup j).isSome = true) :
    ((mapEntriesToObj acc es).lookup j).isSome = true := by
  induction es generalizing acc with
  | nil => simpa [mapEntriesToObj] using h
  | cons e rest ih =>
      obtain ⟨k, v⟩ := e
      rw [mapEntriesToObj]
      exact ih _ (jsonObjInsert_lookup_isSome_mono _ _ _ _ h)

/-- Every entry of a map value ends up with its stringified key present in
the folded object. -/
lemma mapEntriesToObj_key_present (es : List (Field × Field))
    (acc : List (String × JsonValue)) (k v : Field) (hmem : (k, v) ∈ es) :
    ((mapEntriesToObj acc es).lookup (jsonToString (field_to_json k))).isSome = true := by
  induction es generalizing acc with
  | nil => cases hmem
  | cons e rest ih =>
      obtain ⟨k0, v0⟩ := e
      rw [mapEntriesToObj]
      rcases List.mem_cons.mp hmem with heq | hrest
      · obtain ⟨rfl, rfl⟩ := Prod.mk.injEq .. ▸ heq
        exact mapEntriesToObj_lookup_mono _ _ _ (jsonObjInsert_lookup_isSome_self _ _ _)
      · exact ih _ hrest

/-- C10: in the converted map value, every entry appears under the key
obtained by serializing the JSON conversion of its key value — so a string
key s appears quoted and escaped, an integer key as its decimal text, a
boolean key as its literal text. -/
theorem map_key_stringification :
    (∀ (es : List (Field × Field)) (k v : Field), (k, v) ∈ es →
      (objLookup (field_to_json (Field.mapInternal es))
        (jsonToString (field_to_json k))).isSome = true)
    ∧ (∀ s : String, jsonToString (field_to_json (Field.str s))
        = "\"" ++ escapeJsonString s ++ "\"")
    ∧ (∀ i : Int, jsonToString (field_to_json (Field.long i)) = toString i)
    ∧ (∀ b : Bool, jsonToString (field_to_json (Field.bool b)) = boolDisplay b) := by
  refine ⟨?_, fun s => rfl, fun i => rfl, fun b => rfl⟩
  intro es k v hmem
  show ((mapEntriesToObj [] es).lookup (jsonToString (field_to_json k))).isSome = true
  exact mapEntriesToObj_key_present es [] k v hmem

/-- Witness for C10: the map entry with string key a is found under the
three character object key quote-a-quote. -/
theorem map_key_stringification_witness :
    ((Field.str "a", Field.long 1) ∈ [(Field.str "a", Field.long 1)])
    ∧ (objLookup (field_to_json (Field.mapInternal [(Field.str "a", Field.long 1)]))
        "\"a\"").isSome = true := by
  constructor
  · exact List.mem_singleton.mpr rfl
  · exact map_key_stringification.1 [(Field.str "a", Field.long 1)] (Field.str "a")
      (Field.long 1) (List.mem_singleton.mpr rfl)

/-- C7 counterexample: at t = -1 the codec emits the raw integer although
the instant is inside the representable range (its prescribed rendering is
1969-12-31 23:59:59.999): the truncating division and the wrapped u32 cast
make chrono reject the nanosecond field. -/
theorem timestamp_negative_fallback_counterexample :
    field_to_json (Field.timestampMillis (-1)) = JsonValue.num (JsonNum.int (-1))
    ∧ millisRepresentable (-1)
    ∧ specTimestampMillisText (-1) = "1969-12-31 23:59:59.999" := by
  refine ⟨rfl, ⟨by decide, by decide⟩, rfl⟩

/-- The code path rendering of a millisecond timestamp coincides with the
prescribed rendering once both are expressed with Euclidean division; holds
for every t because the arguments are already in Euclidean form here. -/
lemma chronoFormat_eq_spec_millis (t : Int) :
    chronoFormatTimestamp (t / 1000) ((t % 1000 * 1000000).toNat) 3
      = specTimestampMillisText t := by
  simp only [chronoFormatTimestamp, specTimestampMillisText]
  rw [Int.fdiv_eq_ediv _ (by norm_num : (0:Int) ≤ 86400),
      Int.fdiv_eq_ediv _ (by norm_num : (0:Int) ≤ 86400000)]
  have hdays : t / 1000 / 86400 = t / 86400000 := by omega
  rw [hdays]
  have hif : ((t % 1000 * 1000000).toNat < 1000000000) := by omega
  rw [if_pos hif, if_pos hif, if_pos trivial]
  have h1 : (t / 1000 - t / 86400000 * 86400).toNat / 3600
      = (t - t / 86400000 * 86400000).toNat / 3600000 := by omega
  have h2 : (t / 1000 - t / 86400000 * 86400).toNat % 3600 / 60
      = (t - t / 86400000 * 86400000).toNat / 60000 % 60 := by omega
  have h3 : (t / 1000 - t / 86400000 * 86400).toNat % 60
      = (t - t / 86400000 * 86400000).toNat / 1000 % 60 := by omega
  have h4 : (t % 1000 * 1000000).toNat / 1000000
      = (t - t / 86400000 * 86400000).toNat % 1000 := by omega
  rw [h1, h2, h3, h4]

/-- The analogous coincidence for microsecond timestamps. -/
lemma chronoFormat_eq_spec_micros (t : Int) :
    chronoFormatTimestamp (t / 1000000) ((t % 1000000 * 1000).toNat) 6
      = specTimestampMicrosText t := by
  simp only [chronoFormatTimestamp, specTimestampMicrosText]
  rw [Int.fdiv_eq_ediv _ (by norm_num : (0:Int) ≤ 86400),
      Int.fdiv_eq_ediv _ (by norm_num : (0:Int) ≤ 86400000000)]
  have hdays : t / 1000000 / 86400 = t / 86400000000 := by omega
  rw [hdays]
  have hif : ((t % 1000000 * 1000).toNat < 1000000000) := by omega
  rw [if_pos hif, if_pos hif, if_neg (by norm_num : ¬(6:Nat) = 3)]
  have h1 : (t / 1000000 - t / 86400000000 * 86400).toNat / 3600
      = (t - t / 86400000000 * 86400000000).toNat / 3600000000 := by omega
  have h2 : (t / 1000000 - t / 86400000000 * 86400).toNat % 3600 / 60
      = (t - t / 86400000000 * 86400000000).toNat / 60000000 % 60 := by omega
  have h3 : (t / 1000000 - t / 86400000000 * 86400).toNat % 60
      = (t - t / 86400000000 * 86400000000).toNat / 1000000 % 60 := by omega
  have h4 : (t % 1000000 * 1000).toNat / 1000
      = (t - t / 86400000000 * 86400000000).toNat % 1000000 := by omega
  rw [h1, h2, h3, h4]

set_option maxHeartbeats 1000000 in
/-- C7 amended: every non-negative timestamp within chrono's range renders
as the prescribed UTC string (three fractional digits for millis, six for
micros), and the epoch renders as 1970-01-01 00:00:00.000; but a negative
timestamp that is not a whole second falls back to the raw integer even
inside the representable range, because the truncated remainder wraps
through the u32 cast into an invalid nanosecond count. -/
theorem timestamp_codec_amended :
    (∀ t : Int, 0 ≤ t → Int.tdiv t 1000 ≤ chronoMaxSecs →
        field_to_json (Field.timestampMillis t)
          = JsonValue.str (specTimestampMillisText t))
    ∧ (∀ t : Int, 0 ≤ t → Int.tdiv t 1000000 ≤ chronoMaxSecs →
        field_to_json (Field.timestampMicros t)
          = JsonValue.str (specTimestampMicrosText t))
    ∧ (∀ t : Int, t < 0 → Int.tmod t 1000 ≠ 0 →
        field_to_json (Field.timestampMillis t) = JsonValue.num (JsonNum.int t))
    ∧ field_to_json (Field.timestampMillis 0) = JsonValue.str "1970-01-01 00:00:00.000" := by
  have hminv : chronoMinSecs = -8334632851200 := by decide
  refine ⟨?_, ?_, ?_, rfl⟩
  · intro t ht hle
    have hsec : Int.tdiv t 1000 = t / 1000 := Int.tdiv_eq_ediv ht (by norm_num)
    have hmod : Int.tmod t 1000 = t % 1000 := Int.tmod_eq_emod ht (by norm_num)
    have hnan : asU32 (Int.tmod t 1000 * 1000000) = (t % 1000 * 1000000).toNat := by
      rw [hmod]
      unfold asU32
      omega
    have hcf : chronoFromTimestamp (Int.tdiv t 1000) (asU32 (Int.tmod t 1000 * 1000000))
        = some (Int.tdiv t 1000, asU32 (Int.tmod t 1000 * 1000000)) := by
      unfold chronoFromTimestamp
      rw [if_pos]
      refine ⟨?_, hle, ?_⟩
      · rw [hsec, hminv]
        omega
      · rw [hnan]
        omega
    simp only [field_to_json]
    rw [hcf, hsec, hnan]
    exact congrArg JsonValue.str (chronoFormat_eq_spec_millis t)
  · intro t ht hle
    have hsec : Int.tdiv t 1000000 = t / 1000000 := Int.tdiv_eq_ediv ht (by norm_num)
    have hmod : Int.tmod t 1000000 = t % 1000000 := Int.tmod_eq_emod ht (by norm_num)
    have hnan : asU32 (Int.tmod t 1000000 * 1000) = (t % 1000000 * 1000).toNat := by
      rw [hmod]
      unfold asU32
      omega
    have hcf : chronoFromTimestamp (Int.tdiv t 1000000) (asU32 (Int.tmod t 1000000 * 1000))
        = some (Int.tdiv t 1000000, asU32 (Int.tmod t 1000000 * 1000)) := by
      unfold chronoFromTimestamp
      rw [if_pos]
      refine ⟨?_, hle, ?_⟩
      · rw [hsec, hminv]
        omega
      · rw [hnan]
        omega
    simp only [field_to_json]
    rw [hcf, hsec, hnan]
    exact congrArg JsonValue.str (chronoFormat_eq_spec_micros t)
  · intro t htneg hmod0
    have hmneg : Int.tmod t 1000 = -(Int.tmod (-t) 1000) := by
      have h : Int.tmod (-(-t)) 1000 = -(Int.tmod (-t) 1000) := by
        rw [Int.tmod_def, Int.tmod_def, Int.neg_tdiv]
        ring
      simpa using h
    have hml : Int.tmod (-t) 1000 = (-t) % 1000 :=
      Int.tmod_eq_emod (by omega) (by norm_num)
    have hnan : asU32 (Int.tmod t 1000 * 1000000)
        = (4294967296 - (-t) % 1000 * 1000000).toNat := by
      rw [hmneg, hml]
      unfold asU32
      have hne : (-t) % 1000 ≠ 0 := by
        intro h0
        apply hmod0
        rw [hmneg, hml, h0]
        simp
      omega
    have hcf : chronoFromTimestamp (Int.tdiv t 1000) (asU32 (Int.tmod t 1000 * 1000000))
        = none := by
      unfold chronoFromTimestamp
      rw [if_neg]
      rintro ⟨-, -, hlt⟩
      rw [hnan] at hlt
      have hne : (-t) % 1000 ≠ 0 := by
        intro h0
        apply hmod0
        rw [hmneg, hml, h0]
        simp
      omega
    simp only [field_to_json]
    rw [hcf]

/-- Witness for the amended C7 at t = 5 milliseconds. -/
theorem timestamp_codec_amended_witness :
    (0 : Int) ≤ 5
    ∧ Int.tdiv 5 1000 ≤ chronoMaxSecs
    ∧ field_to_json (Field.timestampMillis 5) = JsonValue.str "1970-01-01 00:00:00.005" :=
  ⟨by decide, by decide,
    (timestamp_codec_amended.1 5 (by decide) (by decide)).trans rfl⟩

end Parqsee
